import Mathlib

/-!
Verification of the optimization core of an imitation-learning toolkit
(`training.py`): generalized advantage estimation, the PPO update, the
behavioural-cloning update, and the adversarial imitation (GAIL/AIRL)
update.

Numerics are embedded over exact rationals `ℚ`; the transcendental
`exp` applied by the source is carried as an abstract function
parameter `qexp : ℚ → ℚ` (no property of it is assumed unless a claim
needs one).  Gradient and optimizer effects, which the source delegates
to the autodiff/optimizer backend, are modelled as explicit effect
traces: each update function returns the scalar loss it backpropagates
and/or the list of optimizer steps it performs, one entry per
`optimiser.step()` call in the source.
-/

/-- One timestep of a trajectory as consumed by `compute_advantages`:
the `rewards`, `terminals` and `values` fields that the source reads. -/
structure Transition where
  rewards : ℚ
  terminals : ℚ
  values : ℚ
  deriving DecidableEq

/-- A transition after `compute_advantages` has written its derived
fields `rewards_to_go` and `advantages` into it. -/
structure EnrichedTransition where
  rewards : ℚ
  terminals : ℚ
  values : ℚ
  rewards_to_go : ℚ
  advantages : ℚ
  deriving DecidableEq

/-- The three scalars carried backwards in time by the recursion of
`compute_advantages`: `reward_to_go`, `advantage`, `next_value`. -/
structure GaeState where
  reward_to_go : ℚ
  advantage : ℚ
  next_value : ℚ
  deriving DecidableEq

/-- One loop iteration of `compute_advantages` (source lines 25-30):
given the carried state from the later-in-time transitions, produce the
enriched transition and the new carried state. -/
def gaeStep (discount trace_decay : ℚ) (t : Transition) (s : GaeState) :
    EnrichedTransition × GaeState :=
  let reward_to_go := t.rewards + (1 - t.terminals) * (discount * s.reward_to_go)
  let td_error := t.rewards + (1 - t.terminals) * discount * s.next_value - t.values
  let advantage := td_error + (1 - t.terminals) * discount * trace_decay * s.advantage
  (⟨t.rewards, t.terminals, t.values, reward_to_go, advantage⟩,
   ⟨reward_to_go, advantage, t.values⟩)

/-- The reversed-iteration loop of `compute_advantages`: the source
iterates `reversed(trajectories)`, so the head of the list (earliest in
time) is processed last, with the carried state produced by the tail. -/
def gaeFold (discount trace_decay : ℚ) :
    List Transition → GaeState → List EnrichedTransition × GaeState
  | [], s => ([], s)
  | t :: ts, s =>
    let r := gaeFold discount trace_decay ts s
    let e := gaeStep discount trace_decay t r.2
    (e.1 :: r.1, e.2)

/-- Embeds `compute_advantages` (source lines 21-30): seeds
`reward_to_go = advantage = next_value = 0` and walks the trajectory in
reverse time order, writing `rewards_to_go` and `advantages` into every
record.  The enriched records are returned in the original time order. -/
def compute_advantages (trajectories : List Transition)
    (discount trace_decay : ℚ) : List EnrichedTransition :=
  (gaeFold discount trace_decay trajectories ⟨0, 0, 0⟩).1

/-- The policy distribution object returned by `agent(states)` in the
source: it can score a batch of actions (`log_prob`) and report its
entropies. -/
structure PolicyDist where
  log_prob : List ℚ → List ℚ
  entropy : List ℚ

/-- The agent capability interface used by the core: `forward` maps a
batch of states to a policy distribution and value estimates (the
`agent(states)` call of `ppo_update`), and `log_prob` is the direct
`agent.log_prob(state, action)` form used by behavioural cloning and
AIRL. -/
structure Agent where
  forward : List ℚ → PolicyDist × List ℚ
  log_prob : List ℚ → List ℚ → List ℚ

/-- The parallel-array transition batch consumed by `ppo_update`
(the `trajectories` dictionary of the source). -/
structure Batch where
  states : List ℚ
  actions : List ℚ
  values : List ℚ
  log_prob_actions : List ℚ
  old_log_prob_actions : List ℚ
  entropies : List ℚ
  advantages : List ℚ
  rewards_to_go : List ℚ
  deriving DecidableEq

/-- Elementwise mean of a batch of scalars (torch `.mean()`). -/
def lmean (l : List ℚ) : ℚ := l.sum / l.length

/-- Embeds `F.mse_loss` with the default mean reduction. -/
def mse_loss (input target : List ℚ) : ℚ :=
  lmean (List.zipWith (fun x y => (x - y) * (x - y)) input target)

/-- Embeds `torch.clamp(x, min=lo, max=hi)`. -/
def clamp (x lo hi : ℚ) : ℚ := min (max x lo) hi

/-- The importance ratio of `ppo_update` (source line 40):
`(log_prob_actions - old_log_prob_actions).exp()`. -/
def ppoPolicyRatio (qexp : ℚ → ℚ) (log_prob_actions old_log_prob_actions : List ℚ) :
    List ℚ :=
  List.zipWith (fun a b => qexp (a - b)) log_prob_actions old_log_prob_actions

/-- The clipped-surrogate policy loss of `ppo_update` (source line 41):
`-min(ratio * advantages, clamp(ratio, 1-ε, 1+ε) * advantages).mean()`. -/
def ppoPolicyLoss (qexp : ℚ → ℚ) (ppo_clip : ℚ)
    (log_prob_actions old_log_prob_actions advantages : List ℚ) : ℚ :=
  -(lmean (List.zipWith
      (fun r a => min (r * a) (clamp r (1 - ppo_clip) (1 + ppo_clip) * a))
      (ppoPolicyRatio qexp log_prob_actions old_log_prob_actions) advantages))

/-- Embeds `ppo_update` (source lines 34-48).  Returns the batch as left after
the epoch-conditional recomputation (the source mutates `trajectories`
in place), the scalar loss passed to `.backward()`, and the number of
`agent_optimiser.step()` calls performed. -/
def ppo_update (qexp : ℚ → ℚ) (agent : Agent) (trajectories : Batch)
    (ppo_clip : ℚ) (epoch : ℕ) (value_loss_coeff entropy_loss_coeff : ℚ) :
    Batch × ℚ × ℕ :=
  let tr :=
    if 0 < epoch then
      { trajectories with
          values := (agent.forward trajectories.states).2,
          log_prob_actions :=
            ((agent.forward trajectories.states).1).log_prob trajectories.actions,
          entropies := ((agent.forward trajectories.states).1).entropy }
    else trajectories
  let policy_loss :=
    ppoPolicyLoss qexp ppo_clip tr.log_prob_actions tr.old_log_prob_actions tr.advantages
  let value_loss := mse_loss tr.values tr.rewards_to_go
  let entropy_loss := -(lmean tr.entropies)
  (tr, policy_loss + value_loss_coeff * value_loss + entropy_loss_coeff * entropy_loss, 1)

/-- The raw trajectory buffer wrapped by `TransitionDataset`. -/
structure Transitions where
  states : List ℚ
  actions : List ℚ
  rewards : List ℚ
  terminals : List ℚ
  deriving DecidableEq

/-- One `(s, a, r, s_next, terminal)` item of `TransitionDataset`. -/
abbrev Item := ℚ × ℚ × ℚ × ℚ × ℚ

/-- Embeds `TransitionDataset.__len__`: number of stored timesteps minus one,
since each item needs a successor state.  Caveat: on an empty buffer the
source returns `-1`, which makes a shuffling `DataLoader` raise at
construction time; the truncated subtraction here gives `0` instead, so
theorems that rely on the loader yielding no batches restrict themselves
to nonempty datasets (`1 ≤ datasetLen`). -/
def datasetLen (t : Transitions) : ℕ := t.terminals.length - 1

/-- Embeds `TransitionDataset.__getitem__(idx)`:
`(states[idx], actions[idx], rewards[idx], states[idx+1], terminals[idx])`. -/
def getItem (t : Transitions) (idx : ℕ) : Item :=
  (t.states.getD idx 0, t.actions.getD idx 0, t.rewards.getD idx 0,
   t.states.getD (idx + 1) 0, t.terminals.getD idx 0)

/-- Greedy left-to-right chunking into blocks of exactly `n` items,
dropping any incomplete final block (`drop_last=True`). -/
def chunkExact {α : Type} (n : ℕ) (l : List α) : List (List α) :=
  if _h : 0 < n ∧ n ≤ l.length then
    l.take n :: chunkExact n (l.drop n)
  else []
termination_by l.length
decreasing_by
  simp only [List.length_drop]
  omega

/-- Embeds `DataLoader(dataset, batch_size, shuffle=True, drop_last=True)`:
the shuffle draws a permutation `perm` of `range(len(dataset))`
(carried here as an explicit parameter, since it is randomness external
to the core), items are fetched in that order and collated into
mini-batches of exactly `batch_size`, dropping the incomplete tail.
Caveat: the `ValueError` that such a loader raises at construction time
over an empty dataset (see `datasetLen`) is not modelled — this function
yields an empty batch list there — so conclusions drawn from the
no-batch path carry a nonemptiness hypothesis on the dataset. -/
def dataloaderBatches (t : Transitions) (perm : List ℕ) (batch_size : ℕ) :
    List (List Item) :=
  chunkExact batch_size (perm.map (getItem t))

/-- Stacked `state` column of a collated mini-batch. -/
def batchStates (b : List Item) : List ℚ := b.map fun x => x.1

/-- Stacked `action` column of a collated mini-batch. -/
def batchActions (b : List Item) : List ℚ := b.map fun x => x.2.1

/-- Stacked `next_state` column of a collated mini-batch. -/
def batchNextStates (b : List Item) : List ℚ := b.map fun x => x.2.2.2.1

/-- Embeds `behavioural_cloning_update` (source lines 52-61).  Each mini-batch
performs one opaque optimizer step on the agent parameters, modelled by
`stepFn` applied to the stacked `(expert_state, expert_action)` columns;
returns the final parameters and the number of optimizer steps. -/
def behavioural_cloning_update {Θ : Type} (stepFn : Θ → List ℚ → List ℚ → Θ)
    (params : Θ) (expert_trajectories : Transitions) (perm : List ℕ)
    (batch_size : ℕ) : Θ × ℕ :=
  let expert_dataloader := dataloaderBatches expert_trajectories perm batch_size
  (expert_dataloader.foldl
     (fun a b => stepFn a (batchStates b) (batchActions b)) params,
   expert_dataloader.length)

/-- The argument tuple of one discriminator call: the two-argument GAIL
form `discriminator(state, action)` or the four-argument AIRL form
`discriminator(state, action, next_state, likelihood)`. -/
inductive DCall where
  | gail (state action : List ℚ)
  | airl (state action next_state likelihood : List ℚ)
  deriving DecidableEq

/-- The body of one loop iteration of `adversarial_imitation_update`
(source lines 71-81) up to the two discriminator calls: `.ok` carries
the argument tuples of the `D_expert` and `D_policy` calls; `.error`
models the `UnboundLocalError` raised at line 85 when neither branch
ran and `D_expert` is unbound. -/
def advStep (qexp : ℚ → ℚ) (algorithm : String) (agent : Agent)
    (eb pb : List Item) : Except String (DCall × DCall) :=
  let expert_state := batchStates eb
  let expert_action := batchActions eb
  let expert_next_state := batchNextStates eb
  let policy_state := batchStates pb
  let policy_action := batchActions pb
  let policy_next_state := batchNextStates pb
  if algorithm = "GAIL" then
    .ok (DCall.gail expert_state expert_action,
         DCall.gail policy_state policy_action)
  else if algorithm = "AIRL" then
    let expert_data_policy := (agent.log_prob expert_state expert_action).map qexp
    let policy_data_policy := (agent.log_prob policy_state policy_action).map qexp
    .ok (DCall.airl expert_state expert_action expert_next_state expert_data_policy,
         DCall.airl policy_state expert_action policy_next_state policy_data_policy)
  else .error "UnboundLocalError: D_expert"

/-- The mini-batch loop of `adversarial_imitation_update`: each `.ok`
iteration ends in one `discriminator_optimiser.step()` (recorded in the
first component, one entry per step); an `.error` iteration aborts the
whole update before that iteration performs any optimizer step. -/
def advLoop (qexp : ℚ → ℚ) (algorithm : String) (agent : Agent) :
    List (List Item × List Item) → List (DCall × DCall) × Option String
  | [] => ([], none)
  | bp :: rest =>
    match advStep qexp algorithm agent bp.1 bp.2 with
    | .error e => ([], some e)
    | .ok s =>
      let r := advLoop qexp algorithm agent rest
      (s :: r.1, r.2)

/-- Embeds `adversarial_imitation_update` (source lines 65-88): builds shuffled
mini-batch streams for the expert and policy data, pairs them with `zip`
(iterating to the shorter stream), and runs the discriminator update
loop.  Returns the optimizer-step trace and the error, if any. -/
def adversarial_imitation_update (qexp : ℚ → ℚ) (algorithm : String)
    (agent : Agent) (expert_trajectories policy_trajectories : Transitions)
    (eperm pperm : List ℕ) (batch_size : ℕ) :
    List (DCall × DCall) × Option String :=
  let expert_dataloader := dataloaderBatches expert_trajectories eperm batch_size
  let policy_dataloader := dataloaderBatches policy_trajectories pperm batch_size
  advLoop qexp algorithm agent (expert_dataloader.zip policy_dataloader)

/-- The clipped-surrogate policy loss exactly as the specification words
it: `-mean(min(ratio * advantage, clip(ratio, 1-ε, 1+ε) * advantage))`
with `ratio = exp(log_prob_action - old_log_prob_action)` per record. -/
def specPolicyLoss (qexp : ℚ → ℚ) (ε : ℚ) (lp olp adv : List ℚ) : ℚ :=
  -(lmean (List.zipWith
      (fun r a => min (r * a) (clamp r (1 - ε) (1 + ε) * a))
      (List.zipWith (fun x y => qexp (x - y)) lp olp) adv))

/-- The value loss as the specification words it: the mean-squared error
between `value` and `reward_to_go`. -/
def specValueLoss (value reward_to_go : List ℚ) : ℚ :=
  lmean (List.zipWith (fun v r => (v - r) * (v - r)) value reward_to_go)

/-- The entropy loss as the specification words it: `-mean(entropy)`. -/
def specEntropyLoss (entropy : List ℚ) : ℚ := -(lmean entropy)

theorem gaeFold_nil (d l : ℚ) (s : GaeState) : gaeFold d l [] s = ([], s) := rfl

theorem gaeFold_cons (d l : ℚ) (t : Transition) (ts : List Transition) (s : GaeState) :
    gaeFold d l (t :: ts) s =
      ((gaeStep d l t (gaeFold d l ts s).2).1 :: (gaeFold d l ts s).1,
       (gaeStep d l t (gaeFold d l ts s).2).2) := rfl

theorem gaeFold_fst_length (d l : ℚ) (ts : List Transition) (s : GaeState) :
    (gaeFold d l ts s).1.length = ts.length := by
  induction ts with
  | nil => rfl
  | cons t ts ih => simp [gaeFold_cons, ih]

theorem gaeFold_append (d l : ℚ) (xs ys : List Transition) (s : GaeState) :
    gaeFold d l (xs ++ ys) s =
      ((gaeFold d l xs (gaeFold d l ys s).2).1 ++ (gaeFold d l ys s).1,
       (gaeFold d l xs (gaeFold d l ys s).2).2) := by
  induction xs with
  | nil => simp [gaeFold_nil]
  | cons x xs ih => simp [gaeFold_cons, ih]

theorem gaeFold_terminal_snd (d l : ℚ) (t : Transition) (ht : t.terminals = 1)
    (ts : List Transition) (s : GaeState) :
    (gaeFold d l (t :: ts) s).2 = ⟨t.rewards, t.rewards - t.values, t.values⟩ := by
  simp [gaeFold_cons, gaeStep, ht]

theorem gaeFold_terminal_head (d l : ℚ) (t : Transition) (ht : t.terminals = 1)
    (ts : List Transition) (s : GaeState) :
    (gaeFold d l (t :: ts) s).1 =
      ⟨t.rewards, 1, t.values, t.rewards, t.rewards - t.values⟩ :: (gaeFold d l ts s).1 := by
  simp [gaeFold_cons, gaeStep, ht]

theorem take_len_succ_append_cons {α : Type} (A : List α) (e : α) (xs ys : List α) :
    (A ++ e :: xs).take (A.length + 1) = (A ++ e :: ys).take (A.length + 1) := by
  induction A with
  | nil => simp
  | cons a A ih => simpa using ih

/-- Claim C1: on the 3-step trajectory with rewards `[1, 1, 1]`,
terminals `[0, 0, 1]`, values `[0, 0, 0]`, discount `0.9` and
trace-decay `1`, `compute_advantages` writes `rewards_to_go` values
exactly `[2.71, 1.9, 1.0]` into the three records, in time order. -/
theorem compute_advantages_literal_scenario :
    (compute_advantages [⟨1, 0, 0⟩, ⟨1, 0, 0⟩, ⟨1, 1, 0⟩] (9/10) 1).map
      EnrichedTransition.rewards_to_go = [271/100, 19/10, 1] := by
  norm_num [compute_advantages, gaeFold, gaeStep]

/-- Claim C4: if a trajectory contains a record with terminal flag `1`,
the `rewards_to_go` and `advantages` that `compute_advantages` writes
into that record and all earlier records are independent of everything
after the terminal record: runs on two arbitrary continuations agree on
the whole first episode. -/
theorem compute_advantages_terminal_masking (d l : ℚ) (pre : List Transition)
    (t : Transition) (ht : t.terminals = 1) (post1 post2 : List Transition) :
    (compute_advantages (pre ++ t :: post1) d l).take (pre.length + 1) =
    (compute_advantages (pre ++ t :: post2) d l).take (pre.length + 1) := by
  unfold compute_advantages
  rw [gaeFold_append, gaeFold_append,
      gaeFold_terminal_snd d l t ht post1, gaeFold_terminal_snd d l t ht post2,
      gaeFold_terminal_head d l t ht post1, gaeFold_terminal_head d l t ht post2]
  have hlen := gaeFold_fst_length d l pre
    (⟨t.rewards, t.rewards - t.values, t.values⟩ : GaeState)
  rw [← hlen]
  exact take_len_succ_append_cons _ _ _ _

/-- Witness for C4 at the concrete two-episode trajectory
`[⟨1,0,0⟩, ⟨2,1,0⟩] ++ post` with `post = [⟨5,0,0⟩]` versus
`post = [⟨100,1,3⟩]`. -/
theorem compute_advantages_terminal_masking_witness :
    (⟨2, 1, 0⟩ : Transition).terminals = 1 ∧
    (compute_advantages ([⟨1, 0, 0⟩] ++ ⟨2, 1, 0⟩ :: [⟨5, 0, 0⟩]) (1/2) 1).take 2 =
    (compute_advantages ([⟨1, 0, 0⟩] ++ ⟨2, 1, 0⟩ :: [⟨100, 1, 3⟩]) (1/2) 1).take 2 :=
  ⟨rfl, compute_advantages_terminal_masking (1/2) 1 [⟨1, 0, 0⟩] ⟨2, 1, 0⟩ rfl
    [⟨5, 0, 0⟩] [⟨100, 1, 3⟩]⟩

theorem gaeFold_snd_next_value (d l : ℚ) (ts : List Transition) :
    (gaeFold d l ts ⟨0, 0, 0⟩).2.next_value = (ts.getD 0 ⟨0, 0, 0⟩).values := by
  cases ts with
  | nil => rfl
  | cons t ts => simp [gaeFold_cons, gaeStep]

/-- Claim C6: with trace-decay `0`, the advantage that
`compute_advantages` writes at every step `t` is the one-step TD-error
`reward[t] + (1 - terminal[t]) * discount * value[t+1] - value[t]`, the
value of the step after the last being seeded as `0` (the `getD`
default supplies both out-of-range reads as zero records). -/
theorem compute_advantages_trace_decay_zero_td_error (d : ℚ)
    (tr : List Transition) (i : ℕ) :
    ((compute_advantages tr d 0).getD i ⟨0, 0, 0, 0, 0⟩).advantages =
      (tr.getD i ⟨0, 0, 0⟩).rewards +
        (1 - (tr.getD i ⟨0, 0, 0⟩).terminals) * d * (tr.getD (i + 1) ⟨0, 0, 0⟩).values -
        (tr.getD i ⟨0, 0, 0⟩).values := by
  induction tr generalizing i with
  | nil => simp [compute_advantages, gaeFold]
  | cons t ts ih =>
    cases i with
    | zero =>
      have hnv := gaeFold_snd_next_value d 0 ts
      unfold compute_advantages
      rw [gaeFold_cons]
      simp only [List.getD_cons_zero, List.getD_cons_succ, gaeStep]
      rw [hnv]
      ring
    | succ n =>
      unfold compute_advantages at ih ⊢
      rw [gaeFold_cons]
      simpa [List.getD_cons_succ] using ih n

/-- Claim C3: for every transition batch, the scalar loss that
`ppo_update` backpropagates is
`policy_loss + c_value * value_loss + c_entropy * entropy_loss`, with
the three components exactly as the specification words them over the
batch in force at loss time, and exactly one optimizer step follows. -/
theorem ppo_update_total_loss_single_step (qexp : ℚ → ℚ) (agent : Agent)
    (trajectories : Batch) (ppo_clip : ℚ) (epoch : ℕ)
    (value_loss_coeff entropy_loss_coeff : ℚ) :
    (ppo_update qexp agent trajectories ppo_clip epoch value_loss_coeff
        entropy_loss_coeff).2.1 =
      specPolicyLoss qexp ppo_clip
        (ppo_update qexp agent trajectories ppo_clip epoch value_loss_coeff
          entropy_loss_coeff).1.log_prob_actions
        (ppo_update qexp agent trajectories ppo_clip epoch value_loss_coeff
          entropy_loss_coeff).1.old_log_prob_actions
        (ppo_update qexp agent trajectories ppo_clip epoch value_loss_coeff
          entropy_loss_coeff).1.advantages +
      value_loss_coeff * specValueLoss
        (ppo_update qexp agent trajectories ppo_clip epoch value_loss_coeff
          entropy_loss_coeff).1.values
        (ppo_update qexp agent trajectories ppo_clip epoch value_loss_coeff
          entropy_loss_coeff).1.rewards_to_go +
      entropy_loss_coeff * specEntropyLoss
        (ppo_update qexp agent trajectories ppo_clip epoch value_loss_coeff
          entropy_loss_coeff).1.entropies ∧
    (ppo_update qexp agent trajectories ppo_clip epoch value_loss_coeff
        entropy_loss_coeff).2.2 = 1 := by
  constructor
  · rfl
  · rfl

/-- Claim C5: `ppo_update` never changes `old_log_prob_actions`; at
epoch `0` it leaves the whole batch unchanged, and at any later epoch it
replaces exactly `values`, `log_prob_actions` and `entropies` with the
outputs of the agent on the batch states. -/
theorem ppo_update_frame (qexp : ℚ → ℚ) (agent : Agent) (trajectories : Batch)
    (ppo_clip : ℚ) (epoch : ℕ) (value_loss_coeff entropy_loss_coeff : ℚ) :
    (ppo_update qexp agent trajectories ppo_clip epoch value_loss_coeff
        entropy_loss_coeff).1.old_log_prob_actions =
      trajectories.old_log_prob_actions ∧
    (epoch = 0 →
      (ppo_update qexp agent trajectories ppo_clip epoch value_loss_coeff
        entropy_loss_coeff).1 = trajectories) ∧
    (0 < epoch →
      (ppo_update qexp agent trajectories ppo_clip epoch value_loss_coeff
        entropy_loss_coeff).1 =
      { trajectories with
          values := (agent.forward trajectories.states).2,
          log_prob_actions :=
            ((agent.forward trajectories.states).1).log_prob trajectories.actions,
          entropies := ((agent.forward trajectories.states).1).entropy }) := by
  refine ⟨?_, ?_, ?_⟩
  · by_cases h : 0 < epoch <;> simp [ppo_update, h]
  · intro h
    simp [ppo_update, h]
  · intro h
    simp [ppo_update, h]

/-- A trivial concrete agent used to instantiate the update routines. -/
def agent0 : Agent :=
  ⟨fun _ => (⟨fun _ => [], []⟩, []), fun _ _ => []⟩

/-- A concrete one-record batch used to instantiate `ppo_update`. -/
def batch0 : Batch :=
  ⟨[3], [1], [2], [1/2], [1/3], [4], [5], [6]⟩

/-- Witness for C5 at a concrete batch and epoch `0`. -/
theorem ppo_update_frame_witness :
    (0 : ℕ) = 0 ∧
    (ppo_update (fun x => x) agent0 batch0 (1/5) 0 1 1).1 = batch0 :=
  ⟨rfl, (ppo_update_frame (fun x => x) agent0 batch0 (1/5) 0 1 1).2.1 rfl⟩

/-- Claim C7: adding one constant `c` to every per-record
`log_prob_action` and `old_log_prob_action` leaves the importance ratio,
the clipped-surrogate policy loss, and hence the total loss that
`ppo_update` backpropagates, literally unchanged, for every abstract
`exp` function. -/
theorem ppo_policy_loss_shift_invariant (qexp : ℚ → ℚ) (ppo_clip c : ℚ)
    (lp olp adv : List ℚ) :
    ppoPolicyRatio qexp (lp.map (fun x => x + c)) (olp.map (fun x => x + c)) =
      ppoPolicyRatio qexp lp olp ∧
    ppoPolicyLoss qexp ppo_clip (lp.map (fun x => x + c))
        (olp.map (fun x => x + c)) adv =
      ppoPolicyLoss qexp ppo_clip lp olp adv ∧
    (∀ (agent : Agent) (tr : Batch) (value_loss_coeff entropy_loss_coeff : ℚ),
      (ppo_update qexp agent
          { tr with log_prob_actions := tr.log_prob_actions.map (fun x => x + c),
                    old_log_prob_actions :=
                      tr.old_log_prob_actions.map (fun x => x + c) }
          ppo_clip 0 value_loss_coeff entropy_loss_coeff).2.1 =
      (ppo_update qexp agent tr ppo_clip 0 value_loss_coeff
          entropy_loss_coeff).2.1) := by
  have hr : ∀ (l1 l2 : List ℚ),
      List.zipWith (fun a b => qexp (a - b)) (l1.map (fun x => x + c))
          (l2.map (fun x => x + c)) =
        List.zipWith (fun a b => qexp (a - b)) l1 l2 := by
    intro l1
    induction l1 with
    | nil => intro l2; rfl
    | cons a l1 ih =>
      intro l2
      cases l2 with
      | nil => rfl
      | cons b l2 => simp [ih, add_sub_add_right_eq_sub]
  have hratio : ppoPolicyRatio qexp (lp.map (fun x => x + c))
      (olp.map (fun x => x + c)) = ppoPolicyRatio qexp lp olp := hr lp olp
  have hloss : ∀ (l1 l2 a : List ℚ),
      ppoPolicyLoss qexp ppo_clip (l1.map (fun x => x + c))
          (l2.map (fun x => x + c)) a = ppoPolicyLoss qexp ppo_clip l1 l2 a := by
    intro l1 l2 a
    unfold ppoPolicyLoss ppoPolicyRatio
    rw [hr l1 l2]
  refine ⟨hratio, hloss lp olp adv, ?_⟩
  intro agent tr value_loss_coeff entropy_loss_coeff
  simp only [ppo_update, lt_irrefl, if_false]
  simp [hloss tr.log_prob_actions tr.old_log_prob_actions tr.advantages]

theorem chunkExact_length {α : Type} (n : ℕ) (l : List α) :
    (chunkExact n l).length = l.length / n := by
  rw [chunkExact]
  split
  · next h =>
    have ih := chunkExact_length n (l.drop n)
    simp only [List.length_cons, ih, List.length_drop]
    rw [Nat.div_eq_sub_div h.1 h.2]
  · next h =>
    push_neg at h
    rcases Nat.eq_zero_or_pos n with h0 | h0
    · simp [h0]
    · simp [Nat.div_eq_of_lt (h h0)]
termination_by l.length
decreasing_by
  simp only [List.length_drop]
  omega

theorem advStep_airl (qexp : ℚ → ℚ) (agent : Agent) (eb pb : List Item) :
    advStep qexp "AIRL" agent eb pb =
      .ok (DCall.airl (batchStates eb) (batchActions eb) (batchNextStates eb)
             ((agent.log_prob (batchStates eb) (batchActions eb)).map qexp),
           DCall.airl (batchStates pb) (batchActions eb) (batchNextStates pb)
             ((agent.log_prob (batchStates pb) (batchActions pb)).map qexp)) := rfl

theorem advStep_gail (qexp : ℚ → ℚ) (agent : Agent) (eb pb : List Item) :
    advStep qexp "GAIL" agent eb pb =
      .ok (DCall.gail (batchStates eb) (batchActions eb),
           DCall.gail (batchStates pb) (batchActions pb)) := rfl

theorem advLoop_airl_map (qexp : ℚ → ℚ) (agent : Agent)
    (l : List (List Item × List Item)) :
    advLoop qexp "AIRL" agent l =
      (l.map (fun bp =>
        (DCall.airl (batchStates bp.1) (batchActions bp.1) (batchNextStates bp.1)
           ((agent.log_prob (batchStates bp.1) (batchActions bp.1)).map qexp),
         DCall.airl (batchStates bp.2) (batchActions bp.1) (batchNextStates bp.2)
           ((agent.log_prob (batchStates bp.2) (batchActions bp.2)).map qexp))),
       none) := by
  induction l with
  | nil => rfl
  | cons bp rest ih => simp [advLoop, advStep_airl, ih]

theorem advLoop_gail_length (qexp : ℚ → ℚ) (agent : Agent)
    (l : List (List Item × List Item)) :
    (advLoop qexp "GAIL" agent l).1.length = l.length := by
  induction l with
  | nil => rfl
  | cons bp rest ih => simp [advLoop, advStep_gail, ih]

/-- Claim C2: in the AIRL branch, the expert-side discriminator call is
`discriminator(expert_state, expert_action, expert_next_state,
expert_likelihood)`, while the policy-side call reuses the expert
actions of the expert batch: `discriminator(policy_state, expert_action,
policy_next_state, policy_likelihood)` (the likelihood itself being
computed from the own states and actions of the policy batch); this holds for
every paired mini-batch of every run. -/
theorem airl_policy_call_reuses_expert_action (qexp : ℚ → ℚ) (agent : Agent)
    (expert_trajectories policy_trajectories : Transitions)
    (eperm pperm : List ℕ) (batch_size : ℕ) :
    (adversarial_imitation_update qexp "AIRL" agent expert_trajectories
        policy_trajectories eperm pperm batch_size).1 =
      ((dataloaderBatches expert_trajectories eperm batch_size).zip
        (dataloaderBatches policy_trajectories pperm batch_size)).map (fun bp =>
          (DCall.airl (batchStates bp.1) (batchActions bp.1) (batchNextStates bp.1)
             ((agent.log_prob (batchStates bp.1) (batchActions bp.1)).map qexp),
           DCall.airl (batchStates bp.2) (batchActions bp.1) (batchNextStates bp.2)
             ((agent.log_prob (batchStates bp.2) (batchActions bp.2)).map qexp))) := by
  unfold adversarial_imitation_update
  rw [advLoop_airl_map]

/-- Claim C9: the discriminator update pairs the two shuffled mini-batch
streams with `zip`, so the number of processed paired mini-batches — and
with it the number of discriminator optimizer steps — is the minimum of
the two stream lengths divided by the batch size with the remainder
dropped; in particular expert stream length 10, policy stream length 7
and batch size 3 give exactly 2 paired mini-batches, not 3. -/
theorem adversarial_pairing_count :
    (∀ (qexp : ℚ → ℚ) (agent : Agent) (e p : Transitions)
        (eperm pperm : List ℕ) (batch_size : ℕ),
      (adversarial_imitation_update qexp "GAIL" agent e p eperm pperm
          batch_size).1.length =
        min (eperm.length / batch_size) (pperm.length / batch_size)) ∧
    (∀ (qexp : ℚ → ℚ) (agent : Agent) (e p : Transitions),
      (adversarial_imitation_update qexp "GAIL" agent e p
          (List.range 10) (List.range 7) 3).1.length = 2) := by
  have key : ∀ (qexp : ℚ → ℚ) (agent : Agent) (e p : Transitions)
      (eperm pperm : List ℕ) (batch_size : ℕ),
      (adversarial_imitation_update qexp "GAIL" agent e p eperm pperm
          batch_size).1.length =
        min (eperm.length / batch_size) (pperm.length / batch_size) := by
    intro qexp agent e p eperm pperm batch_size
    unfold adversarial_imitation_update dataloaderBatches
    rw [advLoop_gail_length, List.length_zip, chunkExact_length, chunkExact_length]
    simp
  refine ⟨key, ?_⟩
  intro qexp agent e p
  rw [key]
  simp [List.length_range]

/-- A concrete two-timestep trajectory buffer (one dataset item). -/
def T2 : Transitions := ⟨[0, 1], [2, 3], [4, 5], [0, 0]⟩

theorem chunkExact_eq_nil_of_short {α : Type} (n : ℕ) (l : List α)
    (h : l.length < n) : chunkExact n l = [] := by
  rw [chunkExact, dif_neg]
  omega

/-- Counterexample to C8 as stated: with the algorithm-variant value
`"FOO"` (outside GAIL/AIRL) and nonempty expert and policy data — one
available transition each, so the source constructs both data loaders
successfully — but `batch_size = 2`, no complete paired mini-batch
exists, the loop body never runs, and `adversarial_imitation_update`
returns silently: no error is raised and no discriminator update is
performed, so the invalid configuration is not surfaced. -/
theorem unknown_algorithm_silent_on_small_data :
    (adversarial_imitation_update (fun x => x) "FOO" agent0 T2 T2 [0] [0] 2).1 = [] ∧
    (adversarial_imitation_update (fun x => x) "FOO" agent0 T2 T2 [0] [0] 2).2 = none := by
  constructor <;>
    simp [adversarial_imitation_update, dataloaderBatches, chunkExact, advLoop]

/-- Claim C8 (amended): for every algorithm-variant value outside
{GAIL, AIRL}: whenever at least one complete paired mini-batch exists,
`adversarial_imitation_update` aborts with an error (the unbound
`D_expert` reference) in the first loop iteration, before performing any
discriminator optimizer step; and whenever both datasets are nonempty
(so the source constructs its shuffling data loaders successfully) but
at least one is shorter than the batch size, it returns silently: no
error and no discriminator update.  Empty datasets are outside this
statement: there the source raises at `DataLoader` construction, again
before any update. -/
theorem unknown_algorithm_error_or_silent_skip (qexp : ℚ → ℚ)
    (algorithm : String) (agent : Agent) (e p : Transitions)
    (eperm pperm : List ℕ) (batch_size : ℕ)
    (h1 : algorithm ≠ "GAIL") (h2 : algorithm ≠ "AIRL") :
    ((dataloaderBatches e eperm batch_size).zip
        (dataloaderBatches p pperm batch_size) ≠ [] →
      (adversarial_imitation_update qexp algorithm agent e p eperm pperm
          batch_size).1 = [] ∧
      (adversarial_imitation_update qexp algorithm agent e p eperm pperm
          batch_size).2 = some "UnboundLocalError: D_expert") ∧
    (eperm.length = datasetLen e → pperm.length = datasetLen p →
      1 ≤ datasetLen e → 1 ≤ datasetLen p →
      (datasetLen e < batch_size ∨ datasetLen p < batch_size) →
      (adversarial_imitation_update qexp algorithm agent e p eperm pperm
          batch_size).1 = [] ∧
      (adversarial_imitation_update qexp algorithm agent e p eperm pperm
          batch_size).2 = none) := by
  constructor
  · intro h3
    simp only [adversarial_imitation_update]
    rcases hz : (dataloaderBatches e eperm batch_size).zip
        (dataloaderBatches p pperm batch_size) with _ | ⟨bp, rest⟩
    · exact absurd hz h3
    · constructor <;> simp [advLoop, advStep, h1, h2]
  · intro heperm hpperm _ _ hsmall
    have hz : (dataloaderBatches e eperm batch_size).zip
        (dataloaderBatches p pperm batch_size) = [] := by
      rcases hsmall with hs | hs
      · have he : dataloaderBatches e eperm batch_size = [] := by
          unfold dataloaderBatches
          apply chunkExact_eq_nil_of_short
          simp only [List.length_map, heperm]
          exact hs
        rw [he, List.zip_nil_left]
      · have hp : dataloaderBatches p pperm batch_size = [] := by
          unfold dataloaderBatches
          apply chunkExact_eq_nil_of_short
          simp only [List.length_map, hpperm]
          exact hs
        rw [hp, List.zip_nil_right]
    simp only [adversarial_imitation_update]
    rw [hz]
    exact ⟨rfl, rfl⟩

/-- Witness for the amended C8 at algorithm `"FOO"`: the error branch
with one paired mini-batch (batch size 1) and the silent branch on the
same nonempty data with batch size 2. -/
theorem unknown_algorithm_error_or_silent_skip_witness :
    ("FOO" : String) ≠ "GAIL" ∧ ("FOO" : String) ≠ "AIRL" ∧
    (dataloaderBatches T2 [0] 1).zip (dataloaderBatches T2 [0] 1) ≠ [] ∧
    ((adversarial_imitation_update (fun x => x) "FOO" agent0 T2 T2 [0] [0] 1).1
        = [] ∧
     (adversarial_imitation_update (fun x => x) "FOO" agent0 T2 T2 [0] [0] 1).2
        = some "UnboundLocalError: D_expert") ∧
    ([0] : List ℕ).length = datasetLen T2 ∧ 1 ≤ datasetLen T2 ∧
    datasetLen T2 < 2 ∧
    ((adversarial_imitation_update (fun x => x) "FOO" agent0 T2 T2 [0] [0] 2).1
        = [] ∧
     (adversarial_imitation_update (fun x => x) "FOO" agent0 T2 T2 [0] [0] 2).2
        = none) := by
  have h1 : ("FOO" : String) ≠ "GAIL" := by decide
  have h2 : ("FOO" : String) ≠ "AIRL" := by decide
  have h3 : (dataloaderBatches T2 [0] 1).zip (dataloaderBatches T2 [0] 1) ≠ [] := by
    have hlen : ((dataloaderBatches T2 [0] 1).zip
        (dataloaderBatches T2 [0] 1)).length = 1 := by
      rw [List.length_zip]
      unfold dataloaderBatches
      rw [chunkExact_length]
      simp
    intro hnil
    rw [hnil] at hlen
    simp at hlen
  have hlen0 : ([0] : List ℕ).length = datasetLen T2 := rfl
  have hge : 1 ≤ datasetLen T2 := by norm_num [datasetLen, T2]
  have hlt : datasetLen T2 < 2 := by norm_num [datasetLen, T2]
  exact ⟨h1, h2, h3,
    (unknown_algorithm_error_or_silent_skip (fun x => x) "FOO" agent0 T2 T2
      [0] [0] 1 h1 h2).1 h3,
    hlen0, hge, hlt,
    (unknown_algorithm_error_or_silent_skip (fun x => x) "FOO" agent0 T2 T2
      [0] [0] 2 h1 h2).2 hlen0 hlen0 hge hge (Or.inl hlt)⟩

/-- Claim C10: when the number of available expert transitions (the
dataset length, over which the shuffle permutes) is smaller than
`batch_size`, the mini-batch loop of `behavioural_cloning_update` never
executes: zero optimizer steps, and the agent parameters are returned
unchanged. -/
theorem behavioural_cloning_small_data_no_step {Θ : Type}
    (stepFn : Θ → List ℚ → List ℚ → Θ) (params : Θ)
    (expert_trajectories : Transitions) (perm : List ℕ) (batch_size : ℕ)
    (hperm : perm.length = datasetLen expert_trajectories)
    (hlt : datasetLen expert_trajectories < batch_size) :
    behavioural_cloning_update stepFn params expert_trajectories perm batch_size =
      (params, 0) := by
  have hc : ¬(0 < batch_size ∧
      batch_size ≤ (perm.map (getItem expert_trajectories)).length) := by
    simp only [List.length_map, hperm]
    omega
  have hnil : dataloaderBatches expert_trajectories perm batch_size = [] := by
    unfold dataloaderBatches
    rw [chunkExact, dif_neg hc]
  simp [behavioural_cloning_update, hnil]

/-- Witness for C10: one available expert transition, batch size `2`,
with a step function that would visibly change the parameters if it
ever ran. -/
theorem behavioural_cloning_small_data_no_step_witness :
    ([0] : List ℕ).length = datasetLen T2 ∧ datasetLen T2 < 2 ∧
    behavioural_cloning_update (fun (a : ℚ) _ _ => a + 1) 5 T2 [0] 2 = (5, 0) :=
  ⟨rfl, by norm_num [datasetLen, T2],
   behavioural_cloning_small_data_no_step _ _ _ _ _ rfl
     (by norm_num [datasetLen, T2])⟩
